import Mathlib

set_option maxRecDepth 100000

/-!
Verification development for the lighthouse repository.

The sources embedded here are:
* `lighthouse-core/audits/time-to-interactive.js` (`TTIMetric.audit`): the
  visual-readiness lookup over Speedline frames and the sliding-window
  quiescence search for the time-to-interactive metric;
* `lighthouse-core/audits/cache-start-url.js` (`CacheStartUrl.audit`).

Timestamps, latencies and progress percentages are embedded as `Int`
(the JS numbers are floats, but every constant and comparison in the
audited code is integral).  The external collaborators that the audit
calls (`TracingProcessor.getRiskToResponsiveness`, the FMP audit) are not
among the sources; the estimator is therefore passed to the embedded
search as a function argument `est : Int → Int → Int` giving the
90th-percentile estimated latency of a queried window, and a concrete
estimator modelled from the spec is provided separately (`est90`).
-/

/-- One entry of the `visualProgress` array built in `TTIMetric.audit`
from `artifacts.Speedline.frames`:
`{progress: frame.getProgress(), time: frame.getTimeStamp()}`. -/
structure Frame where
  progress : Int
  time : Int
deriving DecidableEq

/-- The visual-readiness lookup of `TTIMetric.audit` (line 75):
`visualProgress.find(frame => frame.time >= fMPts && frame.progress >= 85)`.
`Array.prototype.find` returns the first element satisfying the predicate,
or `undefined` (here `none`). -/
def visuallyReadyFind (visualProgress : List Frame) (fMPts : Int) : Option Frame :=
  visualProgress.find? fun f => decide (fMPts ≤ f.time) && decide (85 ≤ f.progress)

/-- One entry pushed onto `foundLatencies` (line 102): the window submitted
to `TracingProcessor.getRiskToResponsiveness` together with the
90th-percentile estimate it returned.  The JS records
`Object.assign({}, estLatency, {startTime})`; the window end
(`endTime = startTime + 500`, the second argument of the query) is kept
here as well so that the trail determines exactly which windows were
queried. -/
structure WindowSample where
  windowStart : Int
  windowEnd : Int
  latency : Int
deriving DecidableEq

/-- Outcome of the `while (currentLatency > threshold)` loop
(lines 89-106).  `found` carries the final `startTime`, the final
`currentLatency` and the accumulated `foundLatencies`; `exhausted` is the
`endTime > endOfTraceTime` early exit (the JS discards the accumulated
trail there — see `ttiAudit`, which maps `exhausted` to `noResult`). -/
inductive LoopResult where
  | found (startTime latency : Int) (samples : List WindowSample)
  | exhausted (samples : List WindowSample)
deriving DecidableEq

/-- The `foundLatencies` accumulated by the loop at its exit point. -/
def LoopResult.samples : LoopResult → List WindowSample
  | .found _ _ s => s
  | .exhausted s => s

/-- The body of the `while (currentLatency > threshold)` loop of
`TTIMetric.audit`, with an explicit iteration budget `fuel` to make the
embedding structurally recursive.  One call is one loop iteration:
`startTime += 50`, `endTime = startTime + 500`, the `endTime >
endOfTraceTime` bounds check, the estimator query, the `foundLatencies`
push, and the `currentLatency > threshold` re-test (threshold = 50).
The `fuel = 0` branch is unreachable for the fuel chosen in `ttiLoop`
(lemma `ttiLoopFuel_adequate`): the loop always exits through the bounds
check or the threshold test first. -/
def ttiLoopFuel (est : Int → Int → Int) (endOfTraceTime : Int) :
    Nat → List WindowSample → Int → LoopResult
  | 0, acc, _ => .exhausted acc
  | fuel + 1, acc, startTime =>
    if endOfTraceTime < startTime + 550 then .exhausted acc
    else
      if 50 < est (startTime + 50) (startTime + 550) then
        ttiLoopFuel est endOfTraceTime fuel
          (acc ++ [⟨startTime + 50, startTime + 550, est (startTime + 50) (startTime + 550)⟩])
          (startTime + 50)
      else
        .found (startTime + 50) (est (startTime + 50) (startTime + 550))
          (acc ++ [⟨startTime + 50, startTime + 550, est (startTime + 50) (startTime + 550)⟩])

/-- The quiescence-search loop of `TTIMetric.audit` (lines 89-106), run
with an iteration budget that is provably never exhausted
(`ttiLoopFuel_adequate`): `startTime` strictly increases by 50 each
iteration while `endTime = startTime + 550` may not pass
`endOfTraceTime`, so `(endOfTraceTime - startTime).toNat` iterations
always suffice. -/
def ttiLoop (est : Int → Int → Int) (endOfTraceTime : Int)
    (acc : List WindowSample) (startTime : Int) : LoopResult :=
  ttiLoopFuel est endOfTraceTime (endOfTraceTime - startTime).toNat acc startTime

/-- Outcome of `TTIMetric.audit` after the FMP and trace preprocessing.
`crashed` is the `TypeError` thrown at line 78 when `visuallyReady` is
`undefined` and `.time` is read from it; `noResult` is the bare
`return;` at line 96 (the promise resolves with `undefined`: no result
object and no sample trail); `result` carries `value`/`rawValue`
(= final `startTime`), `extendedInfo.expectedLatencyAtTTI`
(= final `currentLatency`) and `extendedInfo.foundLatencies`. -/
inductive AuditOutcome where
  | crashed
  | noResult
  | result (startTime expectedLatencyAtTTI : Int) (foundLatencies : List WindowSample)
deriving DecidableEq

/-- The diagnostic trail carried by the outcome (`[]` when the audit
crashed or resolved with `undefined`). -/
def AuditOutcome.samples : AuditOutcome → List WindowSample
  | .result _ _ s => s
  | _ => []

/-- The reported interactive time (`rawValue`), when a result exists. -/
def AuditOutcome.interactiveTime : AuditOutcome → Option Int
  | .result s _ _ => some s
  | _ => none

/-- Embedding of `TTIMetric.audit` (lines 74-125), parameterised by the
inputs that the surrounding glue computes: the estimator `est`, the trace
bounds maximum `endOfTraceTime = model.bounds.max`, the Speedline-derived
`visualProgress`, and the FMP-audit timings `fmpTiming`
(`fmpResult.rawValue`), `navStart` (`timings.navStart`) and `fMPfull`
(`timings.fMPfull`).  The search start is
`Math.max(fmpTiming, visuallyReadyTiming) - 50` (line 81), and the loop
pre-increments `startTime += 50` before its first query (line 91). -/
def ttiAudit (est : Int → Int → Int) (endOfTraceTime : Int)
    (visualProgress : List Frame) (fmpTiming navStart fMPfull : Int) : AuditOutcome :=
  match visuallyReadyFind visualProgress (fMPfull + navStart) with
  | none => .crashed
  | some visuallyReady =>
    match ttiLoop est endOfTraceTime []
        (max fmpTiming (visuallyReady.time - navStart) - 50) with
    | .exhausted _ => .noResult
    | .found s lat samples => .result s lat samples

/-- Modelled from the spec: the per-instant input latency underlying
`TracingProcessor.getRiskToResponsiveness` (the tracing processor is not
among the sources).  Spec §4.2: the estimator "identifies contiguous
'busy' periods ... versus idle gaps, and computes, for a user input
landing at a uniformly random instant within the window, the expected
wait until the thread becomes free — i.e. ... the time from the random
input instant to the end of whatever busy period it lands inside (zero if
it lands in an idle gap)".  Busy periods are half-open intervals
`[b, e)` in ms. -/
def latencyAt (busy : List (Int × Int)) (t : Int) : Int :=
  match busy.find? (fun p => decide (p.1 ≤ t) && decide (t < p.2)) with
  | some p => p.2 - t
  | none => 0

/-- Modelled from the spec: the number of 1ms sample instants of the
window `[s, e)` whose modelled input latency is at most `v`.  Spec §4.2
requires the latency distribution to be "sampled or integrated across the
window at a fixed resolution"; the fixed resolution chosen here is
1ms. -/
def countLatencyLE (busy : List (Int × Int)) (s e v : Int) : Nat :=
  (List.range (e - s).toNat).countP fun i => decide (latencyAt busy (s + (i : Int)) ≤ v)

/-- Binary search for the least `v` in `[lo, hi]` satisfying a monotone
predicate `f` (used to read off an empirical percentile). -/
def leastV (f : Int → Bool) : Nat → Int → Int → Int
  | 0, _, hi => hi
  | fuel + 1, lo, hi =>
    if hi ≤ lo then hi
    else
      if f ((lo + hi) / 2) then leastV f fuel lo ((lo + hi) / 2)
      else leastV f fuel ((lo + hi) / 2 + 1) hi

/-- Modelled from the spec: the 90th-percentile estimated input latency
of `TracingProcessor.getRiskToResponsiveness` for the window `[s, e)`
over a trace whose main-thread busy periods are `busy`.  The empirical
90th percentile of the sampled per-instant latency distribution is the
least integer `v` such that at least `⌈0.9·n⌉` of the `n` sampled
instants have latency `≤ v`.  `countLatencyLE` is monotone in `v` and
every sampled latency is below the initial upper bound (the largest busy
end time minus the window start), so the binary search returns that least
`v`. -/
def est90 (busy : List (Int × Int)) (s e : Int) : Int :=
  leastV (fun v => decide ((9 * (e - s).toNat + 9) / 10 ≤ countLatencyLE busy s e v))
    64 0 (max 0 ((busy.map Prod.snd).foldr max 0 - s))

/-- The Speedline progress sequence of end-to-end scenario A (spec §8): a
progress sequence reaching 85% at t = 1200ms. -/
def scenarioAFrames : List Frame := [⟨0, 0⟩, ⟨50, 500⟩, ⟨85, 1200⟩, ⟨100, 3000⟩]

/-- A small concrete estimator used to exercise the search on runs of
three windows: latency 100 for windows starting before 1300, latency 0
afterwards. -/
def stepEst : Int → Int → Int :=
  fun s _ => if s < 1300 then 100 else 0

/-- The manifest `start_url` node as `CacheStartUrl.audit` uses it: an
object carrying the raw string value (`manifest.start_url.raw`,
line 58). -/
structure StartUrlNode where
  raw : String
deriving DecidableEq

/-- The parsed manifest value; `start_url` is `none` when the node is
absent (JS `undefined`, falsy in the guard at line 45). -/
structure ManifestValue where
  start_url : Option StartUrlNode
deriving DecidableEq

/-- The `Manifest` artifact node; `value` is `none` when parsing produced
no value (JS `undefined`, falsy in the guard at line 44). -/
structure ManifestNode where
  value : Option ManifestValue
deriving DecidableEq

/-- The artifacts consumed by `CacheStartUrl.audit`.  `Manifest = none`
models a missing artifact; `CacheContents = none` models a missing or
non-array value (the guard uses `Array.isArray`, line 46); `URL = none`
models a missing URL.  A present but empty `URL` string is `some ""`,
which is falsy in the JS guard (line 47). -/
structure CacheArtifacts where
  Manifest : Option ManifestNode
  CacheContents : Option (List String)
  URL : Option String
deriving DecidableEq

/-- The result object built by `CacheStartUrl.generateAuditResult`. -/
structure CacheAuditResult where
  rawValue : Bool
deriving DecidableEq

/-- The first regex replacement on the resolved start URL (line 60):
`.replace(/\?utm_([^=]*)=([^&]|$)*/, '')`.  At a candidate position the
pattern matches the literal `?utm_`, then (via `[^=]*=`) everything up to
and including the first `=` after it, then (via `([^&]|$)*`, greedy)
every following character up to but excluding the first `&`, or to the
end of the string.  Given the characters from a candidate position, this
returns the remainder after the match, or `none` when the pattern does
not match here. -/
def utmMatchAt (l : List Char) : Option (List Char) :=
  if "?utm_".toList.isPrefixOf l then
    match (l.drop 5).dropWhile (· ≠ '=') with
    | [] => none
    | _ :: afterEq => some (afterEq.dropWhile (· ≠ '&'))
  else none

/-- `String.prototype.replace` with a non-global regex replaces only the
leftmost match: scan left to right, delete the first match of the
`?utm_...` pattern, keep everything else. -/
def stripUtmList : List Char → List Char
  | [] => []
  | c :: cs =>
    match utmMatchAt (c :: cs) with
    | some rest => rest
    | none => c :: stripUtmList cs

/-- The second regex replacement (line 61): `.replace(/\?$/, '')` deletes
a trailing `?`. -/
def stripTrailingQ (l : List Char) : List Char :=
  if l.getLast? = some '?' then l.dropLast else l

/-- `altStartURL` as computed at lines 59-61 from the resolved
`startURL`. -/
def altStartURLOf (startURL : String) : String :=
  ⟨stripTrailingQ (stripUtmList startURL.toList)⟩

/-- Embedding of `CacheStartUrl.audit` (lines 40-75).  `resolve` stands
for Node's `url.resolve` (an external library function, total on string
arguments); the audit applies it as
`url.resolve(baseURL, manifest.start_url.raw)`.  The guard at lines 43-47
requires `artifacts.Manifest`, `.value`, `.value.start_url` and
`artifacts.URL` to be truthy and `artifacts.CacheContents` to be an
array; a present but empty `URL` string is falsy and also takes the
`rawValue: false` early return.  Otherwise the result is whether
`cacheContents.find(req => startURL === req || altStartURL === req)` is
not `undefined`. -/
def cacheStartUrlAudit (resolve : String → String → String)
    (artifacts : CacheArtifacts) : CacheAuditResult :=
  match artifacts.Manifest, artifacts.CacheContents, artifacts.URL with
  | some m, some cacheContents, some baseURL =>
    match m.value with
    | some manifest =>
      match manifest.start_url with
      | some startUrlNode =>
        if baseURL = "" then ⟨false⟩
        else
          ⟨(cacheContents.find? fun req =>
              resolve baseURL startUrlNode.raw == req ||
              altStartURLOf (resolve baseURL startUrlNode.raw) == req).isSome⟩
      | none => ⟨false⟩
    | none => ⟨false⟩
  | _, _, _ => ⟨false⟩

lemma ttiLoopFuel_zero (est : Int → Int → Int) (eot : Int) (acc : List WindowSample) (s : Int) :
    ttiLoopFuel est eot 0 acc s = .exhausted acc := rfl

lemma ttiLoopFuel_succ_def (est : Int → Int → Int) (eot : Int) (f : Nat)
    (acc : List WindowSample) (s : Int) :
    ttiLoopFuel est eot (f + 1) acc s =
      if eot < s + 550 then .exhausted acc
      else if 50 < est (s + 50) (s + 550) then
        ttiLoopFuel est eot f (acc ++ [⟨s + 50, s + 550, est (s + 50) (s + 550)⟩]) (s + 50)
      else
        .found (s + 50) (est (s + 50) (s + 550))
          (acc ++ [⟨s + 50, s + 550, est (s + 50) (s + 550)⟩]) := rfl

/-- Supplying one more unit of fuel than an amount that already bounds
the remaining trace does not change the loop's outcome. -/
lemma ttiLoopFuel_succ (est : Int → Int → Int) (eot : Int) :
    ∀ (f : Nat) (s : Int) (acc : List WindowSample),
      (eot - s).toNat ≤ 500 + 50 * f →
      ttiLoopFuel est eot (f + 1) acc s = ttiLoopFuel est eot f acc s := by
  intro f
  induction f with
  | zero =>
    intro s acc h
    have hlt : eot < s + 550 := by omega
    rw [ttiLoopFuel_succ_def, if_pos hlt, ttiLoopFuel_zero]
  | succ f ih =>
    intro s acc h
    rw [ttiLoopFuel_succ_def est eot (f + 1) acc s, ttiLoopFuel_succ_def est eot f acc s]
    by_cases hlt : eot < s + 550
    · rw [if_pos hlt, if_pos hlt]
    · have h' : (eot - (s + 50)).toNat ≤ 500 + 50 * f := by omega
      rw [if_neg hlt, if_neg hlt]
      by_cases hbig : 50 < est (s + 50) (s + 550)
      · rw [if_pos hbig, if_pos hbig, ih (s + 50) _ h']
      · rw [if_neg hbig, if_neg hbig]

/-- Any fuel at least `(eot - s).toNat` produces the same outcome as the
canonical fuel used by `ttiLoop`: the loop always exits through the
bounds check or the threshold test before its budget runs out. -/
lemma ttiLoopFuel_adequate (est : Int → Int → Int) (eot : Int) :
    ∀ (f : Nat) (s : Int) (acc : List WindowSample),
      (eot - s).toNat ≤ f →
      ttiLoopFuel est eot f acc s = ttiLoopFuel est eot (eot - s).toNat acc s := by
  intro f
  induction f with
  | zero =>
    intro s acc h
    have h0 : (eot - s).toNat = 0 := by omega
    rw [h0]
  | succ f ih =>
    intro s acc h
    rcases Nat.lt_or_ge f (eot - s).toNat with hf | hf
    · have : (eot - s).toNat = f + 1 := by omega
      rw [this]
    · have hstep : (eot - s).toNat ≤ 500 + 50 * f := by omega
      rw [ttiLoopFuel_succ est eot f s acc hstep, ih s acc hf]

/-- Unfolding equation for `ttiLoop`: one JS loop iteration. -/
lemma ttiLoop_eq (est : Int → Int → Int) (eot : Int) (acc : List WindowSample) (s : Int) :
    ttiLoop est eot acc s =
      if eot < s + 550 then .exhausted acc
      else if 50 < est (s + 50) (s + 550) then
        ttiLoop est eot (acc ++ [⟨s + 50, s + 550, est (s + 50) (s + 550)⟩]) (s + 50)
      else
        .found (s + 50) (est (s + 50) (s + 550))
          (acc ++ [⟨s + 50, s + 550, est (s + 50) (s + 550)⟩]) := by
  unfold ttiLoop
  by_cases hlt : eot < s + 550
  · rcases Nat.eq_zero_or_pos (eot - s).toNat with h0 | hpos
    · rw [h0, ttiLoopFuel_zero, if_pos hlt]
    · obtain ⟨k, hk⟩ := Nat.exists_eq_succ_of_ne_zero (Nat.pos_iff_ne_zero.mp hpos)
      rw [hk, ttiLoopFuel_succ_def, if_pos hlt, if_pos hlt]
  · have hge : (550 : Int) ≤ eot - s := by omega
    have hpos : (eot - s).toNat ≠ 0 := by omega
    obtain ⟨k, hk⟩ := Nat.exists_eq_succ_of_ne_zero hpos
    rw [hk, ttiLoopFuel_succ_def, if_neg hlt, if_neg hlt]
    have hk' : (eot - (s + 50)).toNat ≤ k := by omega
    rw [ttiLoopFuel_adequate est eot k (s + 50) _ hk']

/-- The shape of the trail the loop appends when started (pre-increment)
at `s`: windows starting at `s + 50, s + 100, ...`, each 500ms wide, each
recording the estimator's answer for exactly that window. -/
def windowTrail (est : Int → Int → Int) : Int → Nat → List WindowSample
  | _, 0 => []
  | s, k + 1 => ⟨s + 50, s + 550, est (s + 50) (s + 550)⟩ :: windowTrail est (s + 50) k

lemma windowTrail_zero (est : Int → Int → Int) (s : Int) : windowTrail est s 0 = [] := rfl

lemma windowTrail_succ (est : Int → Int → Int) (s : Int) (k : Nat) :
    windowTrail est s (k + 1) =
      ⟨s + 50, s + 550, est (s + 50) (s + 550)⟩ :: windowTrail est (s + 50) k := rfl

/-- Whatever the outcome, the loop's trail extends the accumulator with a
`windowTrail` of some length. -/
lemma ttiLoopFuel_samples_trail (est : Int → Int → Int) (eot : Int) :
    ∀ (f : Nat) (s : Int) (acc : List WindowSample),
      ∃ k : Nat, (ttiLoopFuel est eot f acc s).samples = acc ++ windowTrail est s k := by
  intro f
  induction f with
  | zero =>
    intro s acc
    exact ⟨0, by simp [ttiLoopFuel_zero, LoopResult.samples, windowTrail_zero]⟩
  | succ f ih =>
    intro s acc
    rw [ttiLoopFuel_succ_def]
    by_cases hlt : eot < s + 550
    · exact ⟨0, by simp [if_pos hlt, LoopResult.samples, windowTrail_zero]⟩
    · rw [if_neg hlt]
      by_cases hbig : 50 < est (s + 50) (s + 550)
      · rw [if_pos hbig]
        obtain ⟨k, hk⟩ := ih (s + 50) (acc ++ [⟨s + 50, s + 550, est (s + 50) (s + 550)⟩])
        exact ⟨k + 1, by rw [hk, windowTrail_succ]; simp⟩
      · rw [if_neg hbig]
        exact ⟨1, by simp [LoopResult.samples, windowTrail_succ, windowTrail_zero]⟩

lemma ttiLoop_samples_trail (est : Int → Int → Int) (eot : Int) (acc : List WindowSample)
    (s : Int) : ∃ k : Nat, (ttiLoop est eot acc s).samples = acc ++ windowTrail est s k :=
  ttiLoopFuel_samples_trail est eot _ s acc

/-- Every trail window is 500ms wide and records the estimator's answer
for exactly the window it names. -/
lemma windowTrail_mem (est : Int → Int → Int) :
    ∀ (k : Nat) (s : Int) (w : WindowSample), w ∈ windowTrail est s k →
      w.windowEnd = w.windowStart + 500 ∧ w.latency = est w.windowStart w.windowEnd := by
  intro k
  induction k with
  | zero => intro s w hw; simp [windowTrail_zero] at hw
  | succ k ih =>
    intro s w hw
    rw [windowTrail_succ] at hw
    rcases List.mem_cons.mp hw with hw | hw
    · subst hw
      refine ⟨by simp; omega, ?_⟩
      simp
    · exact ih (s + 50) w hw

lemma windowTrail_head (est : Int → Int → Int) :
    ∀ (k : Nat) (s : Int) (b : WindowSample),
      b ∈ (windowTrail est s k).head? → b.windowStart = s + 50 := by
  intro k s b hb
  cases k with
  | zero => simp [windowTrail_zero] at hb
  | succ k =>
    rw [windowTrail_succ] at hb
    simp at hb
    subst hb
    rfl

/-- Consecutive trail windows start exactly 50ms apart. -/
lemma windowTrail_chain (est : Int → Int → Int) :
    ∀ (k : Nat) (s : Int),
      (windowTrail est s k).Chain' (fun a b => b.windowStart = a.windowStart + 50) := by
  intro k
  induction k with
  | zero => intro s; simp [windowTrail_zero]
  | succ k ih =>
    intro s
    rw [windowTrail_succ]
    refine List.chain'_cons'.mpr ⟨?_, ih (s + 50)⟩
    intro b hb
    have := windowTrail_head est k (s + 50) b hb
    simp [this]

/-- Every window the loop queries lies within the trace bounds: the check
`endTime > endOfTraceTime` is made before the estimator query. -/
lemma ttiLoopFuel_mem_bounds (est : Int → Int → Int) (eot : Int) :
    ∀ (f : Nat) (s : Int) (acc : List WindowSample) (w : WindowSample),
      (∀ w' ∈ acc, w'.windowEnd = w'.windowStart + 500 ∧ w'.windowEnd ≤ eot) →
      w ∈ (ttiLoopFuel est eot f acc s).samples →
      w.windowEnd = w.windowStart + 500 ∧ w.windowEnd ≤ eot := by
  intro f
  induction f with
  | zero => intro s acc w hacc hw; exact hacc w hw
  | succ f ih =>
    intro s acc w hacc hw
    rw [ttiLoopFuel_succ_def] at hw
    by_cases hlt : eot < s + 550
    · rw [if_pos hlt] at hw; exact hacc w hw
    · rw [if_neg hlt] at hw
      have hnew : ∀ w' ∈ acc ++ [(⟨s + 50, s + 550, est (s + 50) (s + 550)⟩ : WindowSample)],
          w'.windowEnd = w'.windowStart + 500 ∧ w'.windowEnd ≤ eot := by
        intro w' hw'
        rcases List.mem_append.mp hw' with h | h
        · exact hacc w' h
        · simp at h
          subst h
          refine ⟨by simp; omega, by simp; omega⟩
      by_cases hbig : 50 < est (s + 50) (s + 550)
      · rw [if_pos hbig] at hw
        exact ih (s + 50) _ w hnew hw
      · rw [if_neg hbig] at hw
        exact hnew w hw

/-- When the loop exits through the threshold test, the reported window
is the last one recorded, its latency passes the exit test
(`currentLatency ≤ 50`), and every earlier recorded window failed it. -/
lemma ttiLoopFuel_found (est : Int → Int → Int) (eot : Int) :
    ∀ (f : Nat) (s : Int) (acc : List WindowSample) (t lat : Int) (smp : List WindowSample),
      (∀ w ∈ acc, 50 < w.latency) →
      ttiLoopFuel est eot f acc s = .found t lat smp →
      smp.getLast? = some ⟨t, t + 500, lat⟩ ∧ lat ≤ 50 ∧
        ∀ w ∈ smp.dropLast, 50 < w.latency := by
  intro f
  induction f with
  | zero => intro s acc t lat smp hacc h; rw [ttiLoopFuel_zero] at h; exact absurd h (by simp)
  | succ f ih =>
    intro s acc t lat smp hacc h
    rw [ttiLoopFuel_succ_def] at h
    by_cases hlt : eot < s + 550
    · rw [if_pos hlt] at h; exact absurd h (by simp)
    · rw [if_neg hlt] at h
      by_cases hbig : 50 < est (s + 50) (s + 550)
      · rw [if_pos hbig] at h
        refine ih (s + 50) _ t lat smp ?_ h
        intro w hw
        rcases List.mem_append.mp hw with hmem | hmem
        · exact hacc w hmem
        · simp at hmem; subst hmem; simpa using hbig
      · rw [if_neg hbig] at h
        obtain ⟨ht, hlat, hsmp⟩ := LoopResult.found.inj h
        subst ht hlat
        rw [← hsmp]
        refine ⟨?_, by omega, ?_⟩
        · rw [List.getLast?_concat]
          simp
          omega
        · rw [List.dropLast_concat]
          exact hacc

/-- The loop queries the estimator at most `⌊(eot - s)/50⌋` times. -/
lemma ttiLoopFuel_len (est : Int → Int → Int) (eot : Int) :
    ∀ (f : Nat) (s : Int) (acc : List WindowSample),
      ((ttiLoopFuel est eot f acc s).samples).length ≤ acc.length + (eot - s).toNat / 50 := by
  intro f
  induction f with
  | zero => intro s acc; simp [ttiLoopFuel_zero, LoopResult.samples]
  | succ f ih =>
    intro s acc
    rw [ttiLoopFuel_succ_def]
    by_cases hlt : eot < s + 550
    · rw [if_pos hlt]; simp [LoopResult.samples]
    · rw [if_neg hlt]
      by_cases hbig : 50 < est (s + 50) (s + 550)
      · rw [if_pos hbig]
        have := ih (s + 50) (acc ++ [⟨s + 50, s + 550, est (s + 50) (s + 550)⟩])
        simp at this
        omega
      · rw [if_neg hbig]
        simp [LoopResult.samples]
        omega

/-- Claim C4: for every execution of the search loop and every window it
submits to the latency estimator, `windowEnd = windowStart + 500` and
`windowEnd ≤ bounds.max`; the bounds check happens before the estimator
query, so the estimator is never invoked on a window extending past the
end of the trace.  The recorded trail enumerates exactly the queried
windows, so the property is stated over it. -/
theorem ttiLoop_windows_within_bounds (est : Int → Int → Int) (eot s₀ : Int) :
    ∀ w ∈ (ttiLoop est eot [] s₀).samples,
      w.windowEnd = w.windowStart + 500 ∧ w.windowEnd ≤ eot := by
  intro w hw
  exact ttiLoopFuel_mem_bounds est eot _ s₀ [] w (by simp) hw

/-- Witness for claim C4 at a concrete three-window run. -/
theorem ttiLoop_windows_within_bounds_witness :
    (WindowSample.mk 1200 1700 100).windowEnd =
        (WindowSample.mk 1200 1700 100).windowStart + 500 ∧
      (WindowSample.mk 1200 1700 100).windowEnd ≤ 10000 :=
  ttiLoop_windows_within_bounds stepEst 10000 1150 ⟨1200, 1700, 100⟩ (by decide)

/-- Claim C6: for every finite trace and every starting point the search
terminates — the embedded loop is a total function whose iteration budget
is provably irrelevant (`ttiLoopFuel_adequate`) — and the number of loop
iterations is at most `⌈(bounds.max − currentStart₀)/stepWidth⌉ + 1`:
there is one iteration per recorded estimator query plus at most one
final bounds-check-only iteration, regardless of whether the latency
threshold is ever satisfied. -/
theorem ttiLoop_iteration_bound (est : Int → Int → Int) (eot s₀ : Int) :
    ((ttiLoop est eot [] s₀).samples).length + 1 ≤ ((eot - s₀).toNat + 49) / 50 + 1 := by
  have h := ttiLoopFuel_len est eot ((eot - s₀).toNat) s₀ []
  simp at h
  unfold ttiLoop
  omega

/-- Claim C8: every tested window is 500ms wide, each recorded sample
carries the estimate for exactly its window, consecutive tested windows
start 50ms apart (overlapping by 450ms), and a sample is recorded for
every tested window — including the final, successful one, which is the
last entry of the trail — before the threshold test is applied. -/
theorem ttiLoop_window_geometry (est : Int → Int → Int) (eot s₀ : Int) :
    (∀ w ∈ (ttiLoop est eot [] s₀).samples,
        w.windowEnd = w.windowStart + 500 ∧ w.latency = est w.windowStart w.windowEnd) ∧
      ((ttiLoop est eot [] s₀).samples).Chain'
        (fun a b => b.windowStart = a.windowStart + 50) ∧
      ∀ t lat smp, ttiLoop est eot [] s₀ = LoopResult.found t lat smp →
        smp.getLast? = some ⟨t, t + 500, lat⟩ := by
  obtain ⟨k, hk⟩ := ttiLoop_samples_trail est eot [] s₀
  simp at hk
  refine ⟨?_, ?_, ?_⟩
  · intro w hw
    rw [hk] at hw
    exact windowTrail_mem est k s₀ w hw
  · rw [hk]
    exact windowTrail_chain est k s₀
  · intro t lat smp h
    unfold ttiLoop at h
    exact (ttiLoopFuel_found est eot _ s₀ [] t lat smp (by simp) h).1

/-- Witness for claim C8 at a concrete three-window run. -/
theorem ttiLoop_window_geometry_witness :
    (WindowSample.mk 1250 1750 100).latency =
        stepEst (WindowSample.mk 1250 1750 100).windowStart
          (WindowSample.mk 1250 1750 100).windowEnd ∧
      ([⟨1200, 1700, 100⟩, ⟨1250, 1750, 100⟩, ⟨1300, 1800, 0⟩] :
          List WindowSample).getLast? = some ⟨1300, 1300 + 500, 0⟩ :=
  ⟨((ttiLoop_window_geometry stepEst 10000 1150).1 ⟨1250, 1750, 100⟩ (by decide)).2,
   (ttiLoop_window_geometry stepEst 10000 1150).2.2 1300 0
     [⟨1200, 1700, 100⟩, ⟨1250, 1750, 100⟩, ⟨1300, 1800, 0⟩] (by decide)⟩

/-- Claim C9: when the search succeeds, the reported interactive time is
the start of the last window recorded in the diagnostic trail, the
reported `expectedLatencyAtTTI` is that window's recorded latency, that
latency passes the loop's exit test (`≤ 50`), and every earlier recorded
window's latency failed it — the result is the first qualifying window
among those tested. -/
theorem ttiAudit_result_first_qualifying (est : Int → Int → Int) (eot : Int)
    (vp : List Frame) (fmp ns ff t lat : Int) (smp : List WindowSample)
    (h : ttiAudit est eot vp fmp ns ff = AuditOutcome.result t lat smp) :
    smp.getLast? = some ⟨t, t + 500, lat⟩ ∧ lat ≤ 50 ∧
      ∀ w ∈ smp.dropLast, 50 < w.latency := by
  unfold ttiAudit at h
  split at h
  · exact absurd h (by simp)
  · split at h
    · exact absurd h (by simp)
    · rename_i heq
      obtain ⟨h1, h2, h3⟩ := AuditOutcome.result.inj h
      subst h1 h2 h3
      unfold ttiLoop at heq
      exact ttiLoopFuel_found est eot _ _ [] _ _ _ (by simp) heq

/-- Witness for claim C9 at a concrete three-window successful run. -/
theorem ttiAudit_result_first_qualifying_witness :
    ([⟨1200, 1700, 100⟩, ⟨1250, 1750, 100⟩, ⟨1300, 1800, 0⟩] :
        List WindowSample).getLast? = some ⟨1300, 1300 + 500, 0⟩ ∧ (0 : Int) ≤ 50 :=
  ⟨(ttiAudit_result_first_qualifying stepEst 10000 scenarioAFrames 1000 0 1000 1300 0
      [⟨1200, 1700, 100⟩, ⟨1250, 1750, 100⟩, ⟨1300, 1800, 0⟩] (by decide)).1,
   (ttiAudit_result_first_qualifying stepEst 10000 scenarioAFrames 1000 0 1000 1300 0
      [⟨1200, 1700, 100⟩, ⟨1250, 1750, 100⟩, ⟨1300, 1800, 0⟩] (by decide)).2.1⟩

/-- Claim C1 (amended): the 50ms subtracted from
`max(layoutStableTime, visualReadyTime)` at line 81 is cancelled by the
loop's pre-increment `startTime += 50` at line 91, so the first window
actually queried starts at `max(layoutStableTime, visualReadyTime)`
itself; in the scenario (`layoutStableTime = 1000`,
`visualReadyTime = 1200`, bounds `[0, 10000]`, busy period
`[2000, 2100]`), the first tested window starts at 1200 and the result is
`Found(1200)` with estimated latency 0. -/
theorem ttiLoop_first_window_start :
    (∀ (est : Int → Int → Int) (eot s₀ : Int),
      ((ttiLoop est eot [] (s₀ - 50)).samples).head?.map WindowSample.windowStart =
        if eot < s₀ + 500 then none else some s₀) ∧
    ttiAudit (est90 [(2000, 2100)]) 10000 scenarioAFrames 1000 0 1000 =
      AuditOutcome.result 1200 0 [⟨1200, 1700, 0⟩] := by
  constructor
  · intro est eot s₀
    rw [ttiLoop_eq]
    have h5 : s₀ - 50 + 550 = s₀ + 500 := by ring
    have h6 : s₀ - 50 + 50 = s₀ := by ring
    rw [h5, h6]
    by_cases hlt : eot < s₀ + 500
    · rw [if_pos hlt, if_pos hlt]
      simp [LoopResult.samples]
    · rw [if_neg hlt, if_neg hlt]
      by_cases hbig : 50 < est s₀ (s₀ + 500)
      · rw [if_pos hbig]
        obtain ⟨k, hk⟩ :=
          ttiLoop_samples_trail est eot ([] ++ [⟨s₀, s₀ + 500, est s₀ (s₀ + 500)⟩]) s₀
        rw [hk]
        simp
      · rw [if_neg hbig]
        simp [LoopResult.samples]
  · decide

/-- Counterexample for claim C1 as stated: at the scenario inputs the
first tested window does not start at 1150 and the result is not
`Found(1150)`. -/
theorem ttiAudit_scenarioA_not_1150 :
    (ttiAudit (est90 [(2000, 2100)]) 10000 scenarioAFrames 1000 0 1000).samples.head?.map
        WindowSample.windowStart ≠ some 1150 ∧
      (ttiAudit (est90 [(2000, 2100)]) 10000 scenarioAFrames 1000 0
          1000).interactiveTime ≠ some 1150 := by
  decide

/-- Claim C2: when the trace ends before any window satisfies the latency
threshold, the code executes the bare `return;` of line 96: the audit
resolves with `undefined` — embedded as `noResult`, which carries no
sample trail — rather than a typed not-found result carrying the
`WindowSample` trail.  Concrete exhausting run: every window's estimate
is 100 (> 50) and the trace ends at 10000. -/
theorem ttiAudit_exhaustion_returns_undefined :
    ttiAudit (fun _ _ => 100) 10000 [⟨85, 1200⟩] 1000 0 1000 = AuditOutcome.noResult ∧
      (ttiAudit (fun _ _ => 100) 10000 [⟨85, 1200⟩] 1000 0 1000).samples = [] := by
  decide

lemma visuallyReadyFind_minimal :
    ∀ (vp : List Frame) (t : Int),
      vp.Pairwise (fun a b => a.time ≤ b.time) →
      ∀ f, visuallyReadyFind vp t = some f →
      ∀ g ∈ vp, t ≤ g.time → 85 ≤ g.progress → f.time ≤ g.time := by
  intro vp t
  induction vp with
  | nil => intro _ f hf; simp [visuallyReadyFind] at hf
  | cons a l ih =>
    intro hs f hf g hg hgt hgp
    rw [List.pairwise_cons] at hs
    unfold visuallyReadyFind at hf
    rcases List.find?_cons_eq_some.mp hf with ⟨hpa, rfl⟩ | ⟨hpa, hfl⟩
    · rcases List.mem_cons.mp hg with rfl | hgl
      · exact le_refl _
      · exact hs.1 g hgl
    · rcases List.mem_cons.mp hg with rfl | hgl
      · simp at hpa
        rcases hpa with h | h
        · omega
        · omega
      · exact ih hs.2 f hfl g hgl hgt hgp

/-- Claim C7: the visual-readiness lookup is idempotent — it is a pure
function of its arguments — and, on a timestamp-sorted sample sequence
(the spec's standing assumption on the upstream progress sequence, §3),
a returned sample has the minimal qualifying timestamp: no sample with an
earlier timestamp both lies at/after the reference time and reaches the
progress threshold. -/
theorem visuallyReadyFind_idem_minimal (vp : List Frame) (t : Int)
    (hsorted : vp.Pairwise fun a b => a.time ≤ b.time) :
    visuallyReadyFind vp t = visuallyReadyFind vp t ∧
      ∀ f, visuallyReadyFind vp t = some f →
        ∀ g ∈ vp, t ≤ g.time → 85 ≤ g.progress → f.time ≤ g.time :=
  ⟨rfl, fun f hf g hg hgt hgp => visuallyReadyFind_minimal vp t hsorted f hf g hg hgt hgp⟩

/-- Witness for claim C7 on a concrete sorted sample sequence. -/
theorem visuallyReadyFind_idem_minimal_witness :
    (Frame.mk 85 1200).time ≤ (Frame.mk 100 3000).time :=
  (visuallyReadyFind_idem_minimal [⟨85, 1200⟩, ⟨100, 3000⟩] 1000 (by decide)).2
    ⟨85, 1200⟩ (by decide) ⟨100, 3000⟩ (by decide) (by decide) (by decide)

/-- Claim C3 (amended): when no progress sample has timestamp at or
after the reference time `fMPts = fMPfull + navStart` and progress at
least 85%, the `find` at line 75 yields `undefined` and reading `.time`
from it at line 78 throws an unchecked `TypeError` (embedded as
`crashed`); no structured `NotFoundError` is reported.  No window is
ever queried: the outcome is `crashed` for every estimator. -/
theorem ttiAudit_no_ready_sample_crashes (est : Int → Int → Int) (eot : Int)
    (vp : List Frame) (fmp ns ff : Int)
    (h : ∀ f ∈ vp, ff + ns ≤ f.time → f.progress < 85) :
    ttiAudit est eot vp fmp ns ff = AuditOutcome.crashed := by
  have hfind : visuallyReadyFind vp (ff + ns) = none := by
    unfold visuallyReadyFind
    rw [List.find?_eq_none]
    intro f hf
    have hp := h f hf
    simp
    intro ht
    have := hp ht
    omega
  unfold ttiAudit
  rw [hfind]

/-- Witness for claim C3's amended statement, on a sequence that reaches
85% only before the reference time (progress 90 at t = 500, reference
time 1000) and stays below it afterwards. -/
theorem ttiAudit_no_ready_sample_crashes_witness :
    ttiAudit (fun _ _ => 0) 5000 [⟨90, 500⟩, ⟨84, 2000⟩] 0 0 1000 = AuditOutcome.crashed :=
  ttiAudit_no_ready_sample_crashes (fun _ _ => 0) 5000 [⟨90, 500⟩, ⟨84, 2000⟩] 0 0 1000
    (by decide)

/-- Counterexample for claim C3 as stated: with a progress sequence never
reaching 85%, the audit outcome is the unchecked `TypeError` crash of
line 78 (`crashed`), not a reported `NotFoundError` with an indeterminate
result. -/
theorem ttiAudit_never85_crashed :
    ttiAudit (fun _ _ => 0) 10000 [⟨50, 1200⟩] 1000 0 1000 = AuditOutcome.crashed := by
  decide

/-- Claim C5: the loop guard is `while (currentLatency > threshold)`, so
a window whose 90th-percentile estimate is exactly 50 terminates the
search as found — although `50 < 50` is false — contradicting the
documented strict `< 50ms` criterion (lines 49 and 80 of the source). -/
theorem ttiAudit_equal_threshold_found :
    ttiAudit (fun _ _ => 50) 10000 scenarioAFrames 1000 0 1000 =
        AuditOutcome.result 1200 50 [⟨1200, 1700, 50⟩] ∧
      ¬(50 : Int) < 50 := by
  decide

/-- Counterexample for claim C10 as stated: with `URL` present but equal
to the empty string — not missing — all other guard fields present, and
the cache containing exactly the resolved start URL, the audit still
returns `rawValue: false`, because the JS guard treats the empty string
as falsy; the claim as stated requires `rawValue: true` here. -/
theorem cacheStartUrlAudit_empty_url :
    cacheStartUrlAudit (fun b r => b ++ r)
        ⟨some ⟨some ⟨some ⟨"index.html"⟩⟩⟩, some ["index.html"], some ""⟩ = ⟨false⟩ ∧
      (fun b r => b ++ r) "" "index.html" = "index.html" ∧
      "index.html" ∈ ["index.html"] := by
  decide

/-- Claim C10 (amended): the cache-start-url audit is a total function of
its artifacts (`url.resolve` modelled as a total function on strings, so
the embedding never raises): when `Manifest.value.start_url`, an array
`CacheContents`, or `URL` is missing — or `URL` is present but empty,
which the JS guard treats the same way — it returns `rawValue: false`;
otherwise it returns `rawValue: true` if and only if some entry of the
cache equals, as an exact string, the start URL resolved against the base
URL or that URL with its `utm_` query string stripped. -/
theorem cacheStartUrlAudit_characterized (resolve : String → String → String)
    (a : CacheArtifacts) :
    (((a.Manifest.bind ManifestNode.value).bind ManifestValue.start_url = none ∨
        a.CacheContents = none ∨ a.URL = none ∨ a.URL = some "") →
      cacheStartUrlAudit resolve a = ⟨false⟩) ∧
    (∀ su cc u,
      ((a.Manifest.bind ManifestNode.value).bind ManifestValue.start_url) = some su →
      a.CacheContents = some cc → a.URL = some u → u ≠ "" →
      ((cacheStartUrlAudit resolve a).rawValue = true ↔
        ∃ req ∈ cc,
          resolve u su.raw = req ∨ altStartURLOf (resolve u su.raw) = req)) := by
  constructor
  · intro h
    rcases a with ⟨om, oc, ou⟩
    rcases om with _ | m
    · rcases oc with _ | cc <;> rcases ou with _ | u <;> simp [cacheStartUrlAudit]
    · rcases oc with _ | cc
      · rcases ou with _ | u <;> simp [cacheStartUrlAudit]
      · rcases ou with _ | u
        · simp [cacheStartUrlAudit]
        · rcases m with ⟨ov⟩
          rcases ov with _ | v
          · simp [cacheStartUrlAudit]
          · rcases v with ⟨osu⟩
            rcases osu with _ | su
            · simp [cacheStartUrlAudit]
            · simp at h
              subst h
              simp [cacheStartUrlAudit]
  · intro su cc u hsu hcc hu hne
    rcases a with ⟨om, oc, ou⟩
    rcases om with _ | m
    · simp at hsu
    · rcases m with ⟨ov⟩
      rcases ov with _ | v
      · simp at hsu
      · rcases v with ⟨osu⟩
        rcases osu with _ | su'
        · simp at hsu
        · simp at hsu
          subst hsu
          subst hcc
          subst hu
          simp only [cacheStartUrlAudit]
          rw [if_neg hne]
          dsimp only
          rw [List.find?_isSome]
          constructor
          · rintro ⟨x, hx, hpx⟩
            simp at hpx
            exact ⟨x, hx, by tauto⟩
          · rintro ⟨x, hx, hpx⟩
            refine ⟨x, hx, ?_⟩
            simp
            tauto

/-- Witness for claim C10's amended characterisation: a present,
non-empty base URL and a cache containing the resolved start URL yield
`rawValue: true`. -/
theorem cacheStartUrlAudit_characterized_witness :
    (cacheStartUrlAudit (fun b r => b ++ r)
        ⟨some ⟨some ⟨some ⟨"start.html"⟩⟩⟩, some ["https://e.com/start.html"],
          some "https://e.com/"⟩).rawValue = true :=
  ((cacheStartUrlAudit_characterized (fun b r => b ++ r)
      ⟨some ⟨some ⟨some ⟨"start.html"⟩⟩⟩, some ["https://e.com/start.html"],
        some "https://e.com/"⟩).2 ⟨"start.html"⟩ ["https://e.com/start.html"]
    "https://e.com/" (by decide) (by decide) (by decide) (by decide)).mpr
    ⟨"https://e.com/start.html", by decide, Or.inl (by decide)⟩
